import Mathlib

/-!
Verification of the AutoNewsGPT pipeline (`auto_gen_news.py`).

The Python program is shallowly embedded as pure Lean functions.  External
effects (HTTP requests, the OpenAI call, the filesystem) are modelled by
explicit outcome oracles passed as arguments, and the orchestrator produces a
trace of the external calls it performs plus the resulting filesystem state.
-/

namespace AutoGenNews

/-! ### Python character/string semantics -/

/-- Python's whitespace class for `str` patterns (`\s`) and `str.strip()`:
the code points Python considers whitespace. -/
def pyIsSpace (c : Char) : Bool :=
  let n := c.toNat
  (9 ≤ n && n ≤ 13) || n == 32 || (28 ≤ n && n ≤ 31) || n == 0x85 || n == 0xa0 ||
  n == 0x1680 || (0x2000 ≤ n && n ≤ 0x200a) || n == 0x2028 || n == 0x2029 ||
  n == 0x202f || n == 0x205f || n == 0x3000

/-- Python `str.strip()` with no argument: remove leading and trailing
whitespace. -/
def pyStrip (s : String) : String :=
  ⟨((s.data.dropWhile pyIsSpace).reverse.dropWhile pyIsSpace).reverse⟩

/-- The character class `[-–—]` of the title-cleaning pattern:
hyphen-minus, en dash, em dash. -/
def isDash (c : Char) : Bool :=
  c == '-' || c == '–' || c == '—'

/-- The fixed three-character core `\s[-–—]\s` of the cleaning pattern. -/
def isPat (a b c : Char) : Bool :=
  pyIsSpace a && isDash b && pyIsSpace c

/-- No newline character occurs in the list (Python `.` does not match `\n`). -/
def noNewline (l : List Char) : Bool :=
  l.all (fun c => c ≠ '\n')

/-- Attempt to match the regex `\s[-–—]\s.*$` at the head of `l`
(no `MULTILINE` flag: `$` matches at the end of the string or just before a
final newline; `.` does not match `\n`).  Returns `some kept` where `kept` is
what remains of `l` after the matched span (either nothing, or a final
newline that `$` stopped in front of), and `none` when the pattern does not
match at this position. -/
def matchAt : List Char → Option (List Char)
  | a :: b :: c :: t =>
    if isPat a b c then
      if noNewline t then some []
      else if t.getLast? == some '\n' && noNewline t.dropLast then some ['\n']
      else none
    else none
  | _ => none

/-- `re.sub(r'\s[-–—]\s.*$', '', ·)` on a character list: scan left to right,
delete the leftmost match (which always extends to the end of the string or
to just before a final newline, so at most one deletion happens). -/
def cleanAux : List Char → List Char
  | [] => []
  | c :: rest => (matchAt (c :: rest)).getD (c :: cleanAux rest)

/-- Title cleaning as performed in `main`:
`re.sub(r'\s[-–—]\s.*$', '', original_title)`. -/
def clean_title (s : String) : String :=
  ⟨cleanAux s.data⟩

/-- Replace every hyphen-minus by an en dash (used to relate a hyphen-separated
title to its en-dash variant). -/
def toEnDash (c : Char) : Char :=
  if c = '-' then '–' else c

/-- Replace every hyphen-minus by an em dash. -/
def toEmDash (c : Char) : Char :=
  if c = '-' then '—' else c

/-! ### `os.path` on POSIX -/

/-- `os.path.basename`: the part after the last `/` (the whole string when no
`/` occurs). -/
def basename (p : String) : String :=
  ⟨(p.data.reverse.takeWhile (fun c => c ≠ '/')).reverse⟩

/-- The extension component `os.path.splitext(p)[1]` (POSIX rules): the last
`.` of the part after the last `/` starts the extension, provided some
character of that part strictly before it is not a `.` (so leading dots, as in
`.bashrc`, yield no extension). -/
def splitext_ext (p : String) : String :=
  let b := (p.data.reverse.takeWhile (fun c => c ≠ '/')).reverse
  let rest := b.dropWhile (fun c => c = '.')
  if rest.contains '.' then
    ⟨'.' :: (rest.reverse.takeWhile (fun c => c ≠ '.')).reverse⟩
  else ""

/-- Python `str.lower()` (ASCII case folding suffices for the extensions the
program compares against). -/
def lowerStr (s : String) : String :=
  ⟨s.data.map Char.toLower⟩

/-- The extension chosen for the temporary file in `main`:
`ext = os.path.splitext(image_url)[1]`, replaced by `".jpg"` when empty or
longer than 5 characters. -/
def chosen_ext (image_url : String) : String :=
  let ext := splitext_ext image_url
  if ext = "" || ext.length > 5 then ".jpg" else ext

/-- The temporary filename `f"temp_image_{category}_{idx}{ext}"`. -/
def tempName (category : String) (idx : Nat) (ext : String) : String :=
  "temp_image_" ++ category ++ "_" ++ toString idx ++ ext

/-- The MIME type inferred in `upload_local_image` from the lowercased
extension. -/
def content_type_of (ext : String) : String :=
  if ext = ".jpg" || ext = ".jpeg" then "image/jpeg"
  else if ext = ".png" then "image/png"
  else if ext = ".gif" then "image/gif"
  else "application/octet-stream"

/-! ### Data model

An article record as it comes out of the news JSON.  A field holds `none`
when the key is absent (or the JSON value is `null`; for `title` and
`urlToImage` the two cases behave identically in the Python code, and
`description`/`content` only flow verbatim into the rewrite prompt). -/

structure Article where
  title : Option String
  description : Option String
  content : Option String
  urlToImage : Option String
deriving DecidableEq

/-- `article.get("title") or "No Title"`: Python `or` replaces both a missing
title and an empty one. -/
def original_title (a : Article) : String :=
  match a.title with
  | none => "No Title"
  | some s => if s = "" then "No Title" else s

/-- `article.get("description", "")`. -/
def description_of (a : Article) : String :=
  a.description.getD ""

/-- `article.get("content", "")`. -/
def content_of (a : Article) : String :=
  a.content.getD ""

/-- `article.get("urlToImage", "")`; the orchestrator skips the article when
this is empty (`if not image_url`). -/
def image_url_of (a : Article) : String :=
  a.urlToImage.getD ""

/-! ### Outcome oracles for the external collaborators

Each network call is parameterised by an oracle describing what the outside
world did: an exception raised during the request (transport error, timeout —
anything the surrounding `except` catches), or a response with a status code
and, where the code inspects it, a body. -/

/-- Body of a news-API response: unparseable, or JSON whose `articles` key is
absent (`none`) or holds a list. -/
inductive NewsBody where
  | notJson : NewsBody
  | json : Option (List Article) → NewsBody
deriving DecidableEq

/-- Outcome of one `requests.get(NEWS_API_URL, ...)` call. -/
inductive FetchOutcome where
  | exception : FetchOutcome
  | response : Nat → NewsBody → FetchOutcome
deriving DecidableEq

/-- Outcome of the `requests.get(image_url, ...)` call in `download_image`.
`exception` covers any raise inside its `try` block. -/
inductive DownloadOutcome where
  | exception : DownloadOutcome
  | response : Nat → DownloadOutcome
deriving DecidableEq

/-- One entry of the `media` list of a WordPress media-upload response;
`.get("id")` / `.get("link")` give `None` when the key is absent. -/
structure MediaEntry where
  id : Option Nat
  link : Option String
deriving DecidableEq

/-- Body of a WordPress media-upload response: unparseable by `resp.json()`,
or JSON whose `media` key yields the given list (`.get("media", [])` makes a
missing key the empty list). -/
inductive UploadBody where
  | notJson : UploadBody
  | json : List MediaEntry → UploadBody
deriving DecidableEq

/-- Outcome of the `requests.post(WP_MEDIA_URL, ...)` call. -/
inductive UploadOutcome where
  | exception : UploadOutcome
  | response : Nat → UploadBody → UploadOutcome
deriving DecidableEq

/-- Outcome of the OpenAI call in `rewrite_article`: `ok text` when the API
returned and `text` is `response.choices[0].message.content`; `failure` when
anything in the `try` block raised. -/
inductive RewriteOutcome where
  | ok : String → RewriteOutcome
  | failure : RewriteOutcome
deriving DecidableEq

/-- Outcome of the `requests.post(WP_POSTS_URL, ...)` call. -/
inductive PostOutcome where
  | exception : PostOutcome
  | response : Nat → PostOutcome
deriving DecidableEq

/-- Everything the outside world decides while one article is processed. -/
structure ArticleWorld where
  rewriteOutcome : RewriteOutcome
  downloadOutcome : DownloadOutcome
  uploadOutcome : UploadOutcome
  /-- whether `os.remove` succeeds (`false` = it raises `OSError`, which the
  code suppresses) -/
  removeOk : Bool
  postOutcome : PostOutcome
deriving DecidableEq

/-! ### Observable events

The trace of external calls and filesystem changes the pipeline performs. -/

inductive Event where
  /-- the OpenAI chat-completion call of `rewrite_article` -/
  | rewriteCall : (title description content : String) → Event
  /-- the HTTP GET of `download_image` -/
  | downloadCall : (url filename : String) → Event
  /-- the temporary file is written (HTTP 200 in `download_image`) -/
  | fileCreate : (filename : String) → Event
  /-- the HTTP POST of `upload_local_image` -/
  | uploadCall : (filename contentType : String) → Event
  /-- the `os.remove` attempt in `main` (`ok` = it did not raise) -/
  | removeCall : (filename : String) → (ok : Bool) → Event
  /-- the HTTP POST of `create_wordpress_post` -/
  | postCall : (title content : String) → (featured : Option Nat) → Event
deriving DecidableEq

/-! ### `fetch_top_headlines` -/

/-- One bucket of `fetch_top_headlines`: the `try` block issues the GET,
`resp.raise_for_status()` raises `HTTPError` for status 400–599,
`resp.json()` raises `requests.exceptions.JSONDecodeError` on an unparseable
body (a `RequestException`, hence caught like the rest), and
`data.get("articles", [])` defaults a missing key to the empty list.  Every
exception is caught and leaves the bucket's list empty. -/
def fetchBucket (o : FetchOutcome) : List Article :=
  match o with
  | .exception => []
  | .response status body =>
    if 400 ≤ status && status < 600 then []
    else
      match body with
      | .notJson => []
      | .json articles => articles.getD []

/-- The mapping returned by `fetch_top_headlines`, in dict insertion order:
finance, business, tech. -/
structure Headlines where
  finance : List Article
  business : List Article
  tech : List Article
deriving DecidableEq

/-- `fetch_top_headlines`: three independent bucket fetches; when the total
number of articles is zero the function calls `sys.exit(0)` (modelled as
`none`) instead of returning the mapping. -/
def fetch_top_headlines (oF oB oT : FetchOutcome) : Option Headlines :=
  if (fetchBucket oF).length + (fetchBucket oB).length + (fetchBucket oT).length = 0
  then none
  else some ⟨fetchBucket oF, fetchBucket oB, fetchBucket oT⟩

/-- The failure conditions of one bucket request named by the spec: a raise
during the request (transport error, timeout), an error status (400–599, the
statuses `raise_for_status` treats as errors and `Response.ok` as
non-success), or an unparseable body. -/
def fetchFails (o : FetchOutcome) : Bool :=
  match o with
  | .exception => true
  | .response status body =>
    (400 ≤ status && status < 600) ||
    (match body with
     | .notJson => true
     | .json _ => false)

/-! ### `rewrite_article` -/

/-- The fixed failure-sentinel string returned by `rewrite_article` when the
OpenAI call fails. -/
def rewrite_sentinel : String :=
  "Error: Could not rewrite article using OpenAI API."

/-- `rewrite_article`: on success returns the generated text stripped
(`response.choices[0].message.content.strip()`); on any exception returns the
sentinel.  It is a total function: it never propagates an exception. -/
def rewrite_article (title description content : String)
    (o : RewriteOutcome) : String :=
  match o with
  | .ok text => pyStrip text
  | .failure => rewrite_sentinel

/-! ### `download_image` -/

/-- Result of `download_image`: the calls it made, whether it returned
`True`, and the filesystem afterwards (a list of existing filenames). -/
structure DResult where
  events : List Event
  ok : Bool
  fs : List String
deriving DecidableEq

/-- Write a filename into the filesystem model (`open(..., "wb")` creates or
truncates). -/
def fsAdd (fs : List String) (f : String) : List String :=
  if fs.contains f then fs else f :: fs

/-- `download_image(image_url, local_filename)`: returns `False` without any
request when the url is empty; otherwise issues the GET, writes the body to
`local_filename` on HTTP 200 and returns `True`, and returns `False` on any
other status or on an exception (the whole body is inside one
`try/except Exception`). -/
def download_image (image_url local_filename : String)
    (o : DownloadOutcome) (fs : List String) : DResult :=
  if image_url = "" then ⟨[], false, fs⟩
  else
    match o with
    | .exception => ⟨[.downloadCall image_url local_filename], false, fs⟩
    | .response status =>
      if status = 200 then
        ⟨[.downloadCall image_url local_filename, .fileCreate local_filename],
         true, fsAdd fs local_filename⟩
      else ⟨[.downloadCall image_url local_filename], false, fs⟩

/-! ### `upload_local_image` -/

/-- Result of `upload_local_image`: the calls it made, and either the
returned pair `(attachment_id, media_link)` or `Except.error ()` when the
function itself raises (which happens exactly when the POST came back with
status 200/201 and `resp.json()` — placed outside the `try` block — cannot
parse the body). -/
structure UResult where
  events : List Event
  result : Except Unit (Option Nat × Option String)

/-- `upload_local_image(image_path)`:
returns `(None, None)` when the file does not exist; otherwise infers the
MIME type from the lowercased extension, POSTs the file, and returns
`(None, None)` on a request exception or a status other than 200/201, raises
on an unparseable 200/201 body, returns `(None, None)` on an empty `media`
list, and otherwise returns the first entry's `id` and `link`. -/
def upload_local_image (image_path : String) (fs : List String)
    (o : UploadOutcome) : UResult :=
  if !fs.contains image_path then ⟨[], .ok (none, none)⟩
  else
    let filename := basename image_path
    let ext := lowerStr (splitext_ext filename)
    let contentType := content_type_of ext
    match o with
    | .exception => ⟨[.uploadCall image_path contentType], .ok (none, none)⟩
    | .response status body =>
      if status ≠ 200 && status ≠ 201 then
        ⟨[.uploadCall image_path contentType], .ok (none, none)⟩
      else
        match body with
        | .notJson => ⟨[.uploadCall image_path contentType], .error ()⟩
        | .json media =>
          match media with
          | [] => ⟨[.uploadCall image_path contentType], .ok (none, none)⟩
          | m :: _ => ⟨[.uploadCall image_path contentType], .ok (m.id, m.link)⟩

/-! ### `create_wordpress_post` -/

/-- `create_wordpress_post(title, content, attachment_id)`: attaches
`featured_image` when `attachment_id` is truthy (Python: non-`None` and
non-zero), POSTs, and returns `True` exactly on status 200/201 (`False` on a
request exception). -/
def create_wordpress_post (title content : String) (attachment_id : Option Nat)
    (o : PostOutcome) : List Event × Bool :=
  let featured : Option Nat :=
    match attachment_id with
    | none => none
    | some i => if i = 0 then none else some i
  match o with
  | .exception => ([.postCall title content featured], false)
  | .response status =>
    ([.postCall title content featured], status = 200 || status = 201)

/-! ### The orchestrator (`main`) -/

/-- Result of processing one article (one iteration of the inner loop of
`main`): the trace of calls, the filesystem afterwards, and whether an
uncaught exception escaped (aborting the whole run). -/
structure PResult where
  events : List Event
  fs : List String
  crashed : Bool
deriving DecidableEq

/-- One iteration of the inner loop of `main` for `article` at (1-based)
index `idx` of bucket `category`:
clean the title; skip immediately when the image URL is empty; rewrite;
derive the temp filename; download (skip on failure); upload; remove the
temp file (`except OSError: pass`); skip when no truthy attachment id; else
create the post.  When `upload_local_image` raises, the exception is uncaught
and the run crashes with the temp file still present. -/
def processArticle (category : String) (idx : Nat) (article : Article)
    (w : ArticleWorld) (fs : List String) : PResult :=
  let title := clean_title (original_title article)
  let image_url := image_url_of article
  if image_url = "" then ⟨[], fs, false⟩
  else
    let rewritten := rewrite_article title (description_of article)
      (content_of article) w.rewriteOutcome
    let local_filename := tempName category idx (chosen_ext image_url)
    let d := download_image image_url local_filename w.downloadOutcome fs
    let events0 := Event.rewriteCall title (description_of article)
      (content_of article) :: d.events
    if d.ok then
      let u := upload_local_image local_filename d.fs w.uploadOutcome
      match u.result with
      | .error _ => ⟨events0 ++ u.events, d.fs, true⟩
      | .ok (attachment_id, _) =>
        let removed := w.removeOk && d.fs.contains local_filename
        let fs2 := if removed then d.fs.erase local_filename else d.fs
        let events1 := events0 ++ u.events ++ [.removeCall local_filename removed]
        match attachment_id with
        | none => ⟨events1, fs2, false⟩
        | some i =>
          if i = 0 then ⟨events1, fs2, false⟩
          else
            let p := create_wordpress_post title rewritten (some i) w.postOutcome
            ⟨events1 ++ p.1, fs2, false⟩
    else ⟨events0, d.fs, false⟩

/-- The inner loop of `main` over one bucket's articles
(`enumerate(articles, start=1)` supplies `idx`); an uncaught exception stops
the whole loop. -/
def processList (category : String) (w : Nat → ArticleWorld) :
    List Article → Nat → List String → PResult
  | [], _, fs => ⟨[], fs, false⟩
  | a :: rest, idx, fs =>
    let r := processArticle category idx a (w idx) fs
    if r.crashed then r
    else
      let r2 := processList category w rest (idx + 1) r.fs
      ⟨r.events ++ r2.events, r2.fs, r2.crashed⟩

/-- Result of a whole run of `main`: trace, final filesystem, process exit
code (0 on normal completion and on the `sys.exit(0)` of an empty fetch;
1 when an uncaught exception aborts the run). -/
structure RunResult where
  events : List Event
  fs : List String
  exitCode : Nat
deriving DecidableEq

/-- `main`: fetch the headlines (exiting cleanly when there are none), then
iterate the buckets in dict insertion order — finance, business, tech — and
the articles of each bucket in fetch order.  `w cat idx` is the world's
behaviour for the article at index `idx` of bucket `cat`. -/
def pipelineMain (oF oB oT : FetchOutcome)
    (w : String → Nat → ArticleWorld) : RunResult :=
  match fetch_top_headlines oF oB oT with
  | none => ⟨[], [], 0⟩
  | some h =>
    let r1 := processList "finance" (w "finance") h.finance 1 []
    if r1.crashed then ⟨r1.events, r1.fs, 1⟩
    else
      let r2 := processList "business" (w "business") h.business 1 r1.fs
      if r2.crashed then ⟨r1.events ++ r2.events, r2.fs, 1⟩
      else
        let r3 := processList "tech" (w "tech") h.tech 1 r2.fs
        ⟨r1.events ++ r2.events ++ r3.events, r3.fs,
         if r3.crashed then 1 else 0⟩

/-! ### The spec's reading of the extension rule (for comparison)

The spec says the extension is taken from the URL's *path*; the code applies
`os.path.splitext` to the whole URL string, query and fragment included.  The
following two definitions formalise the spec's words, to be compared with
`chosen_ext`. -/

/-- The path part of a URL as the spec speaks of it: everything before the
query (`?`) or fragment (`#`). -/
def urlPathPart (url : String) : String :=
  ⟨url.data.takeWhile (fun c => c ≠ '?' && c ≠ '#')⟩

/-- The extension rule as the claim words it: the extension of the URL's
path when plausible (non-empty, at most 5 characters including the dot),
else `".jpg"`. -/
def claimed_path_ext (url : String) : String :=
  let e := splitext_ext (urlPathPart url)
  if e = "" || e.length > 5 then ".jpg" else e

/-! ### Concrete articles and worlds used by witnesses and counterexamples -/

/-- A well-formed article with title, description, content and image URL. -/
def aOk : Article :=
  ⟨some "T", some "D", some "C", some "http://x/a.png"⟩

/-- An article whose (non-empty) title consists only of a separator clause,
so that cleaning empties it. -/
def aSepTitle : Article :=
  ⟨some " - x", some "D", some "C", some "http://x/a.png"⟩

/-- An article with no image URL. -/
def aNoImage : Article :=
  ⟨some "T", some "D", some "C", none⟩

/-- A world in which every collaborator behaves: the rewrite returns `"B"`,
the image GET returns 200, the upload returns 200 with media id 42, the
removal succeeds, and the post creation returns 201. -/
def wOk : ArticleWorld :=
  ⟨.ok "B", .response 200, .response 200 (.json [⟨some 42, some "http://m/1"⟩]),
   true, .response 201⟩

/-- Like `wOk` but the OpenAI call fails. -/
def wRewriteFail : ArticleWorld :=
  ⟨.failure, .response 200, .response 200 (.json [⟨some 42, some "http://m/1"⟩]),
   true, .response 201⟩

/-- Like `wOk` but the media upload returns HTTP 200 with a body
`resp.json()` cannot parse. -/
def wUploadBadBody : ArticleWorld :=
  ⟨.ok "B", .response 200, .response 200 .notJson, true, .response 201⟩

/-- A string with every hyphen-minus turned into an en dash. -/
def strEnDash (s : String) : String :=
  ⟨s.data.map toEnDash⟩

/-- A string with every hyphen-minus turned into an em dash. -/
def strEmDash (s : String) : String :=
  ⟨s.data.map toEmDash⟩

/-! ### Lemmas about the title-cleaning model -/

lemma noNewline_tail {c : Char} {l : List Char}
    (h : noNewline (c :: l) = true) : noNewline l = true := by
  simp only [noNewline, List.all_cons, Bool.and_eq_true] at h
  exact h.2

lemma matchAt_noNewline : ∀ {l k : List Char}, noNewline l = true →
    matchAt l = some k → k = []
  | [], _, _, hm => by simp [matchAt] at hm
  | [_], _, _, hm => by simp [matchAt] at hm
  | [_, _], _, _, hm => by simp [matchAt] at hm
  | a :: b :: c :: t, k, hn, hm => by
    have ht : noNewline t = true :=
      noNewline_tail (noNewline_tail (noNewline_tail hn))
    simp only [matchAt, ht, if_true] at hm
    by_cases hp : isPat a b c
    · simp only [hp, if_true] at hm
      exact (Option.some_inj.mp hm).symm
    · simp [hp] at hm

lemma matchAt_none_of_not_isPat {a b c : Char} (t : List Char)
    (h : isPat a b c = false) : matchAt (a :: b :: c :: t) = none := by
  simp [matchAt, h]

lemma not_isPat_of_matchAt_none {a b c : Char} {t : List Char}
    (hn : noNewline t = true) (h : matchAt (a :: b :: c :: t) = none) :
    isPat a b c = false := by
  by_cases hp : isPat a b c
  · simp [matchAt, hp, hn] at h
  · simpa using hp

lemma cleanAux_cons_some {c : Char} {rest kept : List Char}
    (h : matchAt (c :: rest) = some kept) : cleanAux (c :: rest) = kept := by
  rw [cleanAux, h, Option.getD_some]

lemma cleanAux_cons_none {c : Char} {rest : List Char}
    (h : matchAt (c :: rest) = none) :
    cleanAux (c :: rest) = c :: cleanAux rest := by
  rw [cleanAux, h, Option.getD_none]

lemma matchAt_cleanAux_none {c : Char} {rest : List Char}
    (hn : noNewline (c :: rest) = true)
    (hm : matchAt (c :: rest) = none) :
    matchAt (c :: cleanAux rest) = none := by
  match rest with
  | [] => rfl
  | [x] => rfl
  | x :: y :: rs =>
    have hyrs : noNewline (y :: rs) = true := noNewline_tail (noNewline_tail hn)
    have hrs : noNewline rs = true := noNewline_tail hyrs
    have hpat : isPat c x y = false := not_isPat_of_matchAt_none hrs hm
    cases hmx : matchAt (x :: y :: rs) with
    | some kept =>
      have hk : kept = [] := matchAt_noNewline (noNewline_tail hn) hmx
      rw [cleanAux_cons_some hmx, hk]
      rfl
    | none =>
      rw [cleanAux_cons_none hmx]
      match rs with
      | [] =>
        have h1 : cleanAux [y] = [y] := rfl
        rw [h1]
        exact matchAt_none_of_not_isPat _ hpat
      | z :: rs2 =>
        cases hmy : matchAt (y :: z :: rs2) with
        | some kept2 =>
          have hk2 : kept2 = [] := matchAt_noNewline hyrs hmy
          rw [cleanAux_cons_some hmy, hk2]
          rfl
        | none =>
          rw [cleanAux_cons_none hmy]
          exact matchAt_none_of_not_isPat _ hpat

/-- On newline-free inputs the cleaning pass is idempotent: one application
removes everything from the leftmost separator onward, and the remaining
prefix contains no further separator occurrence. -/
lemma cleanAux_idem : ∀ {l : List Char}, noNewline l = true →
    cleanAux (cleanAux l) = cleanAux l
  | [], _ => rfl
  | c :: rest, hn => by
    have hr : noNewline rest = true := noNewline_tail hn
    cases hmc : matchAt (c :: rest) with
    | some kept =>
      have hk : kept = [] := matchAt_noNewline hn hmc
      rw [cleanAux_cons_some hmc, hk]
      rfl
    | none =>
      rw [cleanAux_cons_none hmc,
        cleanAux_cons_none (matchAt_cleanAux_none hn hmc),
        cleanAux_idem hr]

/-! A character substitution that preserves whitespace, the dash class, and
newlines commutes with the cleaning pass.  Instantiated with hyphen-to-en-dash
and hyphen-to-em-dash, this says a title separated by an en or em dash is
cleaned exactly like its hyphen-separated original. -/

lemma noNewline_map {σ : Char → Char} (hnl : ∀ c, (σ c = '\n') ↔ (c = '\n')) :
    ∀ l : List Char, noNewline (l.map σ) = noNewline l
  | [] => rfl
  | c :: t => by
    simp only [noNewline, List.map_cons, List.all_cons] at *
    rw [show (decide (σ c ≠ '\n')) = (decide (c ≠ '\n')) from
        decide_eq_decide.mpr (not_congr (hnl c)),
      show (List.map σ t).all (fun c => decide (c ≠ '\n')) = t.all (fun c => decide (c ≠ '\n')) from
        noNewline_map hnl t]

lemma getLast?_map_sigma (σ : Char → Char) :
    ∀ l : List Char, (l.map σ).getLast? = l.getLast?.map σ
  | [] => rfl
  | [a] => rfl
  | a :: b :: t => by
    rw [List.map_cons, List.getLast?_cons_cons, List.map_cons,
      List.getLast?_cons_cons, ← List.map_cons]
    exact getLast?_map_sigma σ (b :: t)

lemma dropLast_map_sigma (σ : Char → Char) :
    ∀ l : List Char, (l.map σ).dropLast = l.dropLast.map σ
  | [] => rfl
  | [a] => rfl
  | a :: b :: t => by
    rw [List.map_cons, List.map_cons, List.dropLast_cons₂,
      List.dropLast_cons₂, List.map_cons, ← List.map_cons]
    exact congrArg (σ a :: ·) (dropLast_map_sigma σ (b :: t))

lemma matchAt_map {σ : Char → Char}
    (hsp : ∀ c, pyIsSpace (σ c) = pyIsSpace c)
    (hd : ∀ c, isDash (σ c) = isDash c)
    (hnl : ∀ c, (σ c = '\n') ↔ (c = '\n')) :
    ∀ l : List Char, matchAt (l.map σ) = (matchAt l).map (List.map σ)
  | [] => rfl
  | [a] => rfl
  | [a, b] => rfl
  | a :: b :: c :: t => by
    have hpat : isPat (σ a) (σ b) (σ c) = isPat a b c := by
      simp [isPat, hsp, hd]
    have hlast : ((List.map σ t).getLast? == some '\n') = (t.getLast? == some '\n') := by
      rw [getLast?_map_sigma]
      cases t.getLast? with
      | none => rfl
      | some x =>
        simp only [Option.map_some']
        by_cases hx : x = '\n'
        · rw [hx, (hnl '\n').mpr rfl]
        · have h1 : σ x ≠ '\n' := fun h => hx ((hnl x).mp h)
          simp [hx, h1]
    have hσn : σ '\n' = '\n' := (hnl '\n').mpr rfl
    simp only [List.map_cons, matchAt, hpat, noNewline_map hnl, hlast,
      dropLast_map_sigma, noNewline_map hnl,
      apply_ite (Option.map (List.map σ)), Option.map_some', Option.map_none',
      List.map_cons, List.map_nil, hσn]

lemma cleanAux_map {σ : Char → Char}
    (hsp : ∀ c, pyIsSpace (σ c) = pyIsSpace c)
    (hd : ∀ c, isDash (σ c) = isDash c)
    (hnl : ∀ c, (σ c = '\n') ↔ (c = '\n')) :
    ∀ l : List Char, cleanAux (l.map σ) = (cleanAux l).map σ
  | [] => rfl
  | c :: rest => by
    cases hmc : matchAt (c :: rest) with
    | some kept =>
      have hm2 : matchAt ((c :: rest).map σ) = some (kept.map σ) := by
        rw [matchAt_map hsp hd hnl, hmc, Option.map_some']
      rw [List.map_cons] at hm2
      rw [List.map_cons, cleanAux_cons_some hm2, cleanAux_cons_some hmc]
    | none =>
      have hm2 : matchAt ((c :: rest).map σ) = none := by
        rw [matchAt_map hsp hd hnl, hmc, Option.map_none']
      rw [List.map_cons] at hm2
      rw [List.map_cons, cleanAux_cons_none hm2, cleanAux_cons_none hmc,
        List.map_cons, cleanAux_map hsp hd hnl rest]

lemma toEnDash_pyIsSpace (c : Char) : pyIsSpace (toEnDash c) = pyIsSpace c := by
  unfold toEnDash
  split
  · rename_i h
    rw [h]
    decide
  · rfl

lemma toEnDash_isDash (c : Char) : isDash (toEnDash c) = isDash c := by
  unfold toEnDash
  split
  · rename_i h
    rw [h]
    decide
  · rfl

lemma toEnDash_newline (c : Char) : (toEnDash c = '\n') ↔ (c = '\n') := by
  unfold toEnDash
  split
  · rename_i h
    rw [h]
    decide
  · exact Iff.rfl

lemma toEmDash_pyIsSpace (c : Char) : pyIsSpace (toEmDash c) = pyIsSpace c := by
  unfold toEmDash
  split
  · rename_i h
    rw [h]
    decide
  · rfl

lemma toEmDash_isDash (c : Char) : isDash (toEmDash c) = isDash c := by
  unfold toEmDash
  split
  · rename_i h
    rw [h]
    decide
  · rfl

lemma toEmDash_newline (c : Char) : (toEmDash c = '\n') ↔ (c = '\n') := by
  unfold toEmDash
  split
  · rename_i h
    rw [h]
    decide
  · exact Iff.rfl

/-! ### Lemmas about the orchestrator -/

lemma postCall_not_mem_download {t c : String} {f : Option Nat}
    (u fn : String) (o : DownloadOutcome) (fs : List String) :
    Event.postCall t c f ∉ (download_image u fn o fs).events := by
  cases o with
  | exception => unfold download_image; split <;> simp
  | response s =>
    unfold download_image
    split
    · simp
    · dsimp only
      split <;> simp

lemma postCall_not_mem_upload {t c : String} {f : Option Nat}
    (p : String) (fs : List String) (o : UploadOutcome) :
    Event.postCall t c f ∉ (upload_local_image p fs o).events := by
  cases o with
  | exception => unfold upload_local_image; split <;> simp
  | response s body =>
    unfold upload_local_image
    split
    · simp
    · dsimp only
      split
      · simp
      · cases body with
        | notJson => simp
        | json media => cases media <;> simp

lemma create_post_events (title content : String) (aid : Option Nat)
    (o : PostOutcome) :
    (create_wordpress_post title content aid o).1 =
      [Event.postCall title content
        (match aid with
         | none => none
         | some i => if i = 0 then none else some i)] := by
  unfold create_wordpress_post
  cases o <;> rfl

/-- Whenever processing an article emits a post-creation call, the article
had a non-empty image URL, the download returned success, the upload returned
a truthy attachment id (which becomes the featured image), and the post's
title and body are the cleaned title and the rewrite result. -/
lemma processArticle_post {category : String} {idx : Nat} {a : Article}
    {w : ArticleWorld} {fs : List String} {t c : String} {f : Option Nat}
    (hmem : Event.postCall t c f ∈ (processArticle category idx a w fs).events) :
    t = clean_title (original_title a) ∧
    c = rewrite_article (clean_title (original_title a)) (description_of a)
      (content_of a) w.rewriteOutcome ∧
    image_url_of a ≠ "" ∧
    (download_image (image_url_of a)
      (tempName category idx (chosen_ext (image_url_of a)))
      w.downloadOutcome fs).ok = true ∧
    ∃ i link, i ≠ 0 ∧
      (upload_local_image (tempName category idx (chosen_ext (image_url_of a)))
        (download_image (image_url_of a)
          (tempName category idx (chosen_ext (image_url_of a)))
          w.downloadOutcome fs).fs
        w.uploadOutcome).result = .ok (some i, link) ∧
      f = some i := by
  by_cases himg : image_url_of a = ""
  · simp [processArticle, himg] at hmem
  · cases hok : (download_image (image_url_of a)
        (tempName category idx (chosen_ext (image_url_of a)))
        w.downloadOutcome fs).ok with
    | false =>
      simp [processArticle, himg, hok, postCall_not_mem_download] at hmem
    | true =>
      cases hu : (upload_local_image
          (tempName category idx (chosen_ext (image_url_of a)))
          (download_image (image_url_of a)
            (tempName category idx (chosen_ext (image_url_of a)))
            w.downloadOutcome fs).fs
          w.uploadOutcome).result with
      | error e =>
        simp [processArticle, himg, hok, hu, postCall_not_mem_download,
          postCall_not_mem_upload] at hmem
      | ok pair =>
        obtain ⟨aid, link⟩ := pair
        cases aid with
        | none =>
          simp [processArticle, himg, hok, hu, postCall_not_mem_download,
            postCall_not_mem_upload] at hmem
        | some i =>
          by_cases hi : i = 0
          · simp [processArticle, himg, hok, hu, hi, postCall_not_mem_download,
              postCall_not_mem_upload] at hmem
          · simp [processArticle, himg, hok, hu, hi, postCall_not_mem_download,
              postCall_not_mem_upload, create_post_events] at hmem
            obtain ⟨rfl, rfl, rfl⟩ := hmem
            exact ⟨rfl, rfl, himg, rfl, i, link, hi, rfl, rfl⟩

lemma downloadCall_mem_download (u fn : String) (o : DownloadOutcome)
    (fs : List String) (h : u ≠ "") :
    Event.downloadCall u fn ∈ (download_image u fn o fs).events := by
  cases o with
  | exception => simp [download_image, h]
  | response s =>
    unfold download_image
    rw [if_neg h]
    dsimp only
    split <;> simp

/-- Whenever the image URL is non-empty, the article's trace contains the
image GET, addressed at the URL and at the temporary filename built from the
chosen extension. -/
lemma downloadCall_mem_processArticle (category : String) (idx : Nat)
    (a : Article) (w : ArticleWorld) (fs : List String)
    (h : image_url_of a ≠ "") :
    Event.downloadCall (image_url_of a)
      (tempName category idx (chosen_ext (image_url_of a))) ∈
      (processArticle category idx a w fs).events := by
  have hd := downloadCall_mem_download (image_url_of a)
    (tempName category idx (chosen_ext (image_url_of a))) w.downloadOutcome fs h
  cases hok : (download_image (image_url_of a)
      (tempName category idx (chosen_ext (image_url_of a)))
      w.downloadOutcome fs).ok with
  | false => simp [processArticle, h, hok, hd]
  | true =>
    cases hu : (upload_local_image
        (tempName category idx (chosen_ext (image_url_of a)))
        (download_image (image_url_of a)
          (tempName category idx (chosen_ext (image_url_of a)))
          w.downloadOutcome fs).fs
        w.uploadOutcome).result with
    | error e => simp [processArticle, h, hok, hu, hd]
    | ok pair =>
      obtain ⟨aid, link⟩ := pair
      cases aid with
      | none => simp [processArticle, h, hok, hu, hd]
      | some i =>
        by_cases hi : i = 0
        · simp [processArticle, h, hok, hu, hi, hd]
        · simp [processArticle, h, hok, hu, hi, hd]

lemma fetchFails_empty (o : FetchOutcome) (h : fetchFails o = true) :
    fetchBucket o = [] := by
  cases o with
  | exception => rfl
  | response s body =>
    cases body with
    | notJson =>
      unfold fetchBucket
      dsimp only
      split <;> rfl
    | json arts =>
      have hr : (400 ≤ s && s < 600) = true := by
        simpa [fetchFails] using h
      simp [fetchBucket, hr]

/-! ### Further concrete inputs for witnesses and counterexamples -/

/-- An article whose `title` key is absent (or `null`). -/
def aNoTitle : Article :=
  ⟨none, some "D", some "C", some "http://x/a.png"⟩

/-- An article whose image URL carries a query string whose text supplies the
last dot of the URL. -/
def aQuery : Article :=
  ⟨some "T", some "D", some "C", some "http://h/a.png?v=1.x"⟩

/-! ### The claims -/

/-- Claim C2 (code bug): the claim says every temporary file created for an
article is deleted before that article's processing ends, on every exit
path.  The code violates this: when the media upload comes back HTTP 200
with a body `resp.json()` cannot parse, `upload_local_image` raises (the
`resp.json()` call sits outside its `try` block), `main` aborts before
reaching `os.remove`, and the temporary file survives.  This theorem
evaluates the pipeline at exactly that world: the trace contains the file
creation but no removal, the run crashes, and the file is still on disk. -/
theorem claim_cleanup_missed_on_upload_crash :
    processArticle "business" 1 aOk wUploadBadBody [] =
      ⟨[.rewriteCall "T" "D" "C",
        .downloadCall "http://x/a.png" "temp_image_business_1.png",
        .fileCreate "temp_image_business_1.png",
        .uploadCall "temp_image_business_1.png" "image/png"],
       ["temp_image_business_1.png"], true⟩ := by
  decide

/-- Claim C5: for every bucket, if that bucket's request fails (transport
error or timeout, an error status 400–599 — the statuses `raise_for_status`
flags and `Response.ok` counts as non-success — or an unparseable body), the
bucket's entry in the returned mapping is empty, no exception escapes
`fetch_top_headlines` (the model is total; its only non-mapping outcome is
the clean `sys.exit(0)`), and each bucket's entry depends only on its own
outcome, so the other buckets are unaffected. -/
theorem claim_bucket_failure_empty (oF oB oT : FetchOutcome) :
    (fetchFails oF = true → fetchBucket oF = []) ∧
    (fetchFails oB = true → fetchBucket oB = []) ∧
    (fetchFails oT = true → fetchBucket oT = []) ∧
    (∀ h : Headlines, fetch_top_headlines oF oB oT = some h →
      h.finance = fetchBucket oF ∧ h.business = fetchBucket oB ∧
      h.tech = fetchBucket oT) := by
  refine ⟨fetchFails_empty oF, fetchFails_empty oB, fetchFails_empty oT, ?_⟩
  intro h hEq
  unfold fetch_top_headlines at hEq
  split at hEq
  · exact absurd hEq (by simp)
  · obtain rfl := Option.some_inj.mp hEq
    exact ⟨rfl, rfl, rfl⟩

theorem claim_bucket_failure_empty_witness :
    fetchFails FetchOutcome.exception = true ∧
    fetchBucket FetchOutcome.exception = [] :=
  ⟨by decide, (claim_bucket_failure_empty FetchOutcome.exception
      (FetchOutcome.response 200 (NewsBody.json (some [aOk])))
      (FetchOutcome.response 500 (NewsBody.json (some [aOk])))).1 (by decide)⟩

/-- Claim C6: when the three buckets together hold zero articles, the run
ends at once with exit code 0 (the `sys.exit(0)` inside
`fetch_top_headlines`) and the trace is empty — no rewrite, download, upload
or post-creation call happens. -/
theorem claim_empty_fetch_clean_exit (oF oB oT : FetchOutcome)
    (w : String → Nat → ArticleWorld)
    (h : (fetchBucket oF).length + (fetchBucket oB).length +
      (fetchBucket oT).length = 0) :
    pipelineMain oF oB oT w = ⟨[], [], 0⟩ := by
  simp [pipelineMain, fetch_top_headlines, h]

theorem claim_empty_fetch_clean_exit_witness :
    (fetchBucket FetchOutcome.exception).length +
      (fetchBucket FetchOutcome.exception).length +
      (fetchBucket FetchOutcome.exception).length = 0 ∧
    pipelineMain FetchOutcome.exception FetchOutcome.exception
      FetchOutcome.exception (fun _ _ => wOk) = ⟨[], [], 0⟩ :=
  ⟨by decide, claim_empty_fetch_clean_exit _ _ _ _ (by decide)⟩

/-- Claim C7 (code bug): the claim — and the function's own docstring — say
`upload_local_image` returns the first media entry's id and link exactly on
HTTP 200/201 with a non-empty media list, and `(None, None)` on any other
status, transport failure, or structurally unexpected body, never raising.
The first four conjuncts evaluate exactly those behaviours; the last shows
the violation: on a 200 response whose body is not parseable JSON the
function raises (`resp.json()` is outside the `try` block) instead of
returning `(None, None)`. -/
theorem claim_upload_failure_result :
    (upload_local_image "a.png" ["a.png"]
      (.response 200 (.json [⟨some 42, some "L"⟩]))).result =
      .ok (some 42, some "L") ∧
    (upload_local_image "a.png" ["a.png"]
      (.response 500 (.json [⟨some 42, some "L"⟩]))).result = .ok (none, none) ∧
    (upload_local_image "a.png" ["a.png"] .exception).result =
      .ok (none, none) ∧
    (upload_local_image "a.png" ["a.png"]
      (.response 200 (.json []))).result = .ok (none, none) ∧
    (upload_local_image "a.png" ["a.png"]
      (.response 200 .notJson)).result = .error () :=
  ⟨rfl, rfl, rfl, rfl, rfl⟩

/-- Claim C1: a post-creation call happens for an article only if the
article's image URL is non-empty, `download_image` returned success, and
`upload_local_image` returned a truthy attachment id (in particular, the id
is not `None`, so a failed upload — which returns `(None, None)` — never
leads to a post-creation call). -/
theorem claim_post_only_after_success (category : String) (idx : Nat)
    (a : Article) (w : ArticleWorld) (fs : List String) (t c : String)
    (f : Option Nat)
    (h : Event.postCall t c f ∈ (processArticle category idx a w fs).events) :
    image_url_of a ≠ "" ∧
    (download_image (image_url_of a)
      (tempName category idx (chosen_ext (image_url_of a)))
      w.downloadOutcome fs).ok = true ∧
    ∃ i link, i ≠ 0 ∧
      (upload_local_image (tempName category idx (chosen_ext (image_url_of a)))
        (download_image (image_url_of a)
          (tempName category idx (chosen_ext (image_url_of a)))
          w.downloadOutcome fs).fs
        w.uploadOutcome).result = .ok (some i, link) ∧
      f = some i := by
  obtain ⟨-, -, h1, h2, h3⟩ := processArticle_post h
  exact ⟨h1, h2, h3⟩

theorem claim_post_only_after_success_witness :
    Event.postCall "T" "B" (some 42) ∈
      (processArticle "business" 1 aOk wOk []).events ∧
    (image_url_of aOk ≠ "" ∧
     (download_image (image_url_of aOk)
       (tempName "business" 1 (chosen_ext (image_url_of aOk)))
       wOk.downloadOutcome []).ok = true ∧
     ∃ i link, i ≠ 0 ∧
       (upload_local_image (tempName "business" 1 (chosen_ext (image_url_of aOk)))
         (download_image (image_url_of aOk)
           (tempName "business" 1 (chosen_ext (image_url_of aOk)))
           wOk.downloadOutcome []).fs
         wOk.uploadOutcome).result = .ok (some i, link) ∧
       (some 42 : Option Nat) = some i) :=
  ⟨by decide,
   claim_post_only_after_success "business" 1 aOk wOk [] "T" "B" (some 42)
     (by decide)⟩

/-- Claim C3: an article whose image URL is empty or missing produces no
rewrite, download, upload or post-creation call (its trace is empty and the
filesystem is untouched), and the loop proceeds to the next article exactly
as if the skipped article were not there. -/
theorem claim_skip_no_image (category : String) (idx : Nat) (a : Article)
    (w : ArticleWorld) (wf : Nat → ArticleWorld) (rest : List Article)
    (fs : List String) (h : image_url_of a = "") :
    processArticle category idx a w fs = ⟨[], fs, false⟩ ∧
    processList category wf (a :: rest) idx fs =
      processList category wf rest (idx + 1) fs := by
  have h1 : ∀ (w' : ArticleWorld) (fs' : List String),
      processArticle category idx a w' fs' = ⟨[], fs', false⟩ := by
    intro w' fs'
    simp [processArticle, h]
  refine ⟨h1 w fs, ?_⟩
  simp [processList, h1]

theorem claim_skip_no_image_witness :
    image_url_of aNoImage = "" ∧
    processArticle "finance" 1 aNoImage wOk [] = ⟨[], [], false⟩ :=
  ⟨rfl, (claim_skip_no_image "finance" 1 aNoImage wOk (fun _ => wOk) [] []
    rfl).1⟩

/-- Claim C4 (amended): title cleaning is idempotent on every title that
contains no newline character (on arbitrary strings a newline can block the
leftmost separator match so that a second application removes more — see the
counterexample); it is pattern-exact on the claim's examples; and replacing
the hyphen-minus by an en dash or em dash throughout commutes with cleaning,
so a title with an en-dash or em-dash separator is cleaned exactly like its
hyphen-separated original. -/
theorem claim_title_cleaning :
    (∀ l : List Char, noNewline l = true → cleanAux (cleanAux l) = cleanAux l) ∧
    clean_title "Fed Raises Rates - Reuters" = "Fed Raises Rates" ∧
    clean_title "Plain Headline" = "Plain Headline" ∧
    clean_title "Fed Raises Rates – Reuters" = "Fed Raises Rates" ∧
    clean_title "Fed Raises Rates — Reuters" = "Fed Raises Rates" ∧
    (∀ s : String, clean_title (strEnDash s) = strEnDash (clean_title s)) ∧
    (∀ s : String, clean_title (strEmDash s) = strEmDash (clean_title s)) := by
  refine ⟨fun l h => cleanAux_idem h, by decide, by decide, by decide,
    by decide, ?_, ?_⟩
  · intro s
    exact congrArg String.mk
      (cleanAux_map toEnDash_pyIsSpace toEnDash_isDash toEnDash_newline s.data)
  · intro s
    exact congrArg String.mk
      (cleanAux_map toEmDash_pyIsSpace toEmDash_isDash toEmDash_newline s.data)

theorem claim_title_cleaning_witness :
    noNewline "A - B".data = true ∧
    cleanAux (cleanAux "A - B".data) = cleanAux "A - B".data :=
  ⟨by decide, claim_title_cleaning.1 "A - B".data (by decide)⟩

/-- Claim C4 is false as stated: cleaning is not idempotent on every input
string.  On `"A - B\n- c"` the first separator's `.*$` cannot reach the end
of the string (a newline intervenes), so the first pass removes only the
second separator clause, producing `"A - B"`, and a second pass shortens it
further to `"A"` — matching CPython's `re.sub` on the same input. -/
theorem claim_title_cleaning_cex :
    clean_title (clean_title "A - B\n- c") ≠ clean_title "A - B\n- c" := by
  decide

/-- Claim C8: `rewrite_article` is total — on a failed OpenAI call it
returns the fixed sentinel string rather than raising — and whenever a
post-creation call is emitted for an article whose rewrite failed, the post
body published is exactly that sentinel. -/
theorem claim_rewrite_sentinel :
    (∀ title description content : String,
      rewrite_article title description content RewriteOutcome.failure =
        rewrite_sentinel) ∧
    (∀ (category : String) (idx : Nat) (a : Article) (w : ArticleWorld)
      (fs : List String) (t c : String) (f : Option Nat),
      w.rewriteOutcome = RewriteOutcome.failure →
      Event.postCall t c f ∈ (processArticle category idx a w fs).events →
      c = rewrite_sentinel) := by
  refine ⟨fun _ _ _ => rfl, fun category idx a w fs t c f hw hmem => ?_⟩
  obtain ⟨-, hc, -⟩ := processArticle_post hmem
  rw [hc, hw]
  rfl

theorem claim_rewrite_sentinel_witness :
    wRewriteFail.rewriteOutcome = RewriteOutcome.failure ∧
    Event.postCall "T" rewrite_sentinel (some 42) ∈
      (processArticle "business" 1 aOk wRewriteFail []).events ∧
    rewrite_sentinel = rewrite_sentinel :=
  ⟨rfl, by decide,
   claim_rewrite_sentinel.2 "business" 1 aOk wRewriteFail [] "T"
     rewrite_sentinel (some 42) rfl (by decide)⟩

/-- Claim C9 (amended): the temporary file's extension comes from applying
`os.path.splitext` to the whole URL string — query and fragment included —
not to the URL's path component: it is that splitext extension when
plausible (non-empty and at most 5 characters including the dot) and
`".jpg"` otherwise, and the download is addressed at exactly that
filename. -/
theorem claim_ext_rule (category : String) (idx : Nat) (a : Article)
    (w : ArticleWorld) (fs : List String) (h : image_url_of a ≠ "") :
    Event.downloadCall (image_url_of a)
      (tempName category idx (chosen_ext (image_url_of a))) ∈
      (processArticle category idx a w fs).events ∧
    (splitext_ext (image_url_of a) ≠ "" ∧
      (splitext_ext (image_url_of a)).length ≤ 5 →
      chosen_ext (image_url_of a) = splitext_ext (image_url_of a)) ∧
    (splitext_ext (image_url_of a) = "" ∨
      (splitext_ext (image_url_of a)).length > 5 →
      chosen_ext (image_url_of a) = ".jpg") := by
  refine ⟨downloadCall_mem_processArticle category idx a w fs h, ?_, ?_⟩
  · rintro ⟨h1, h2⟩
    simp [chosen_ext, h1, Nat.not_lt.mpr h2]
  · rintro (h1 | h1) <;> simp [chosen_ext, h1]

theorem claim_ext_rule_witness :
    image_url_of aOk ≠ "" ∧
    Event.downloadCall (image_url_of aOk)
      (tempName "business" 1 (chosen_ext (image_url_of aOk))) ∈
      (processArticle "business" 1 aOk wOk []).events :=
  ⟨by decide, (claim_ext_rule "business" 1 aOk wOk [] (by decide)).1⟩

/-- Claim C9 is false as stated: the extension is not taken from the URL's
path.  For the URL `"http://h/a.png?v=1.x"` the path's extension is
`".png"`, but the code applies `splitext` to the whole URL and uses `".x"`
(the text after the query string's last dot): the download targets
`temp_image_business_1.x`, not the `.png` name the claim predicts. -/
theorem claim_ext_rule_cex :
    chosen_ext "http://h/a.png?v=1.x" = ".x" ∧
    claimed_path_ext "http://h/a.png?v=1.x" = ".png" ∧
    Event.downloadCall "http://h/a.png?v=1.x" "temp_image_business_1.x" ∈
      (processArticle "business" 1 aQuery wOk []).events ∧
    chosen_ext "http://h/a.png?v=1.x" ≠
      claimed_path_ext "http://h/a.png?v=1.x" := by
  refine ⟨by decide, by decide, by decide, by decide⟩

/-- Claim C10 (amended): a missing, `null` or empty title is replaced by the
fixed string `"No Title"` before cleaning (so the title handed to cleaning
is never empty), and the published post's title is the cleaned value of that
replacement.  The original claim's conclusion that the published title is
therefore never empty is false — cleaning can erase a non-empty title (see
the counterexample). -/
theorem claim_title_fallback :
    (∀ a : Article, original_title a ≠ "") ∧
    (∀ a : Article, (a.title = none ∨ a.title = some "") →
      original_title a = "No Title") ∧
    (∀ (category : String) (idx : Nat) (a : Article) (w : ArticleWorld)
      (fs : List String) (t c : String) (f : Option Nat),
      Event.postCall t c f ∈ (processArticle category idx a w fs).events →
      t = clean_title (original_title a)) := by
  refine ⟨?_, ?_, ?_⟩
  · intro a
    unfold original_title
    cases a.title with
    | none => decide
    | some s =>
      by_cases hs : s = ""
      · simp [hs]
      · simp [hs]
  · intro a h
    rcases h with h | h <;> simp [original_title, h]
  · intro category idx a w fs t c f hmem
    exact (processArticle_post hmem).1

theorem claim_title_fallback_witness :
    original_title aNoTitle ≠ "" ∧
    (aNoTitle.title = none ∨ aNoTitle.title = some "") ∧
    original_title aNoTitle = "No Title" :=
  ⟨claim_title_fallback.1 aNoTitle, Or.inl rfl,
   claim_title_fallback.2.1 aNoTitle (Or.inl rfl)⟩

/-- Claim C10 is false as stated: the published title can be empty.  The
non-empty title `" - x"` escapes the `"No Title"` substitution, but cleaning
erases it entirely, and the pipeline publishes a post whose title is the
empty string. -/
theorem claim_title_fallback_cex :
    aSepTitle.title = some " - x" ∧
    clean_title (original_title aSepTitle) = "" ∧
    Event.postCall "" "B" (some 42) ∈
      (processArticle "business" 1 aSepTitle wOk []).events := by
  refine ⟨rfl, by decide, by decide⟩

end AutoGenNews
